import Mathlib

/-!
Verification of the ghttpd daemon (src/ghttpd.go) against its specification.

Go strings are byte strings; we embed them as `List Char`, each `Char`
standing for one byte (all concrete inputs used below are ASCII, where the
two notions coincide).  Each Go function of the connection-handling
pipeline is translated into a Lean function of the same name; the
filesystem and the TCP stream are passed explicitly as values.
-/

namespace Ghttpd

/-- A Go string, embedded as a list of characters (bytes). -/
abbrev GoStr := List Char

/-- Embedding of Go `strings.Split(s, sep)` for a one-character separator:
splits at every occurrence of `sep`, keeping empty pieces, and returns one
piece even for the empty string. -/
def goSplit (sep : Char) : GoStr → List GoStr
  | [] => [[]]
  | c :: rest =>
    if c = sep then [] :: goSplit sep rest
    else
      match goSplit sep rest with
      | t :: ts => (c :: t) :: ts
      | [] => [[c]]

/-- Embedding of Go `strings.TrimPrefix(s, pre)`: drops `pre` once when it
is a prefix of `s`, otherwise returns `s` unchanged. -/
def goTrim (pre s : GoStr) : GoStr :=
  if pre.isPrefixOf s then s.drop pre.length else s

/-- Hex digit value, as in Go `net/url`'s `unhex`. -/
def unhex (c : Char) : Option Nat :=
  if '0' ≤ c ∧ c ≤ '9' then some (c.toNat - '0'.toNat)
  else if 'a' ≤ c ∧ c ≤ 'f' then some (c.toNat - 'a'.toNat + 10)
  else if 'A' ≤ c ∧ c ≤ 'F' then some (c.toNat - 'A'.toNat + 10)
  else none

/-- Embedding of Go `url.PathUnescape`: percent-decodes `%XX` escape
sequences (producing the escaped byte) and fails on an incomplete or
non-hexadecimal escape; every other character, `+` included, passes
through unchanged. -/
def pathUnescape : GoStr → Option GoStr
  | [] => some []
  | '%' :: a :: b :: rest =>
    match unhex a, unhex b with
    | some x, some y => (pathUnescape rest).map (fun t => Char.ofNat (16 * x + y) :: t)
    | _, _ => none
  | '%' :: _ :: [] => none
  | '%' :: [] => none
  | c :: rest => (pathUnescape rest).map (fun t => c :: t)

/-- Embedding of `bufio.Reader.ReadString('\n')` as used by `parseRequest`:
returns the prefix of the stream up to and including the first newline, or
`none` when the stream ends before any newline (in which case the Go code
gets a non-nil error and fails). -/
def readFirstLine : GoStr → Option GoStr
  | [] => none
  | c :: rest =>
    if c = '\n' then some ['\n']
    else (readFirstLine rest).map (fun t => c :: t)

/-- The error conditions `parseRequest` can signal (src/ghttpd.go lines
136-152): a stream with no request line, a request line whose
space-separated part count is not three, and an invalid percent escape in
the path token.  The first two are the spec's `MalformedRequest`. -/
inductive ParseErr where
  | invalidRequestFormat
  | invalidRequestLine
  | invalidURLEncoding
deriving DecidableEq

/-- The parsed request-line triple returned by `parseRequest`. -/
structure Request where
  method : GoStr
  path : GoStr
  version : GoStr
deriving DecidableEq

/-- Embedding of the pure part of `parseRequest` (src/ghttpd.go lines
141-154), applied to the first line as read from the connection: splits
the line on the space character, fails when the part count is not three,
percent-decodes the second part, and otherwise returns the three tokens
verbatim (the version token keeps its trailing line terminator). -/
def parseRequestLine (line : GoStr) : Except ParseErr Request :=
  match goSplit ' ' line with
  | [method, rawPath, version] =>
    match pathUnescape rawPath with
    | some path => .ok ⟨method, path, version⟩
    | none => .error .invalidURLEncoding
  | _ => .error .invalidRequestLine

/-- Embedding of `parseRequest` (src/ghttpd.go lines 133-155) on the byte
stream of a connection: read the first newline-terminated line, then parse
it. -/
def parseRequest (stream : GoStr) : Except ParseErr Request :=
  match readFirstLine stream with
  | none => .error .invalidRequestFormat
  | some line => parseRequestLine line

/-- The two validation failures of `validateRequest` with their Go error
messages. -/
inductive ValErr where
  | invalidHTTPVersion
  | methodNotAllowed
deriving DecidableEq

/-- The message carried by each validation error (src/ghttpd.go lines
113, 117), as sent to the client in the 400 response body. -/
def errMessage : ValErr → GoStr
  | .invalidHTTPVersion => "invalid HTTP version".toList
  | .methodNotAllowed => "method not allowed".toList

/-- Embedding of `validateRequest` (src/ghttpd.go lines 111-121): first
rejects a version that does not start with "HTTP", then a method other
than "GET"; `none` means validation succeeded. -/
def validateRequest (method version : GoStr) : Option ValErr :=
  if !("HTTP".toList.isPrefixOf version) then some .invalidHTTPVersion
  else if method ≠ "GET".toList then some .methodNotAllowed
  else none

/-- A path is rooted when it starts with the separator, as in Go
`path/filepath` on Unix. -/
def isRooted : GoStr → Bool
  | '/' :: _ => true
  | _ => false

/-- One step of Go `filepath.Clean`'s element loop, over the output kept
as a reversed list of elements: empty and "." elements are dropped; ".."
pops the previous element when one is poppable, is kept when the path is
not rooted and nothing can be popped, and is dropped at the root. -/
def cleanStep (rooted : Bool) (out : List GoStr) (e : GoStr) : List GoStr :=
  if e = [] ∨ e = ['.'] then out
  else if e = ['.', '.'] then
    match out with
    | last :: rest => if last = ['.', '.'] then e :: last :: rest else rest
    | [] => if rooted then [] else [e]
  else e :: out

/-- Embedding of Go `filepath.Clean` (Unix): split on the separator,
process the elements left to right, and reassemble, restoring the leading
separator of a rooted path and returning "." for an empty result. -/
def goClean (p : GoStr) : GoStr :=
  if p = [] then ['.']
  else
    let rooted := isRooted p
    let elems := (goSplit '/' p).foldl (cleanStep rooted) []
    let body := List.intercalate ['/'] elems.reverse
    if rooted then '/' :: body
    else if body = [] then ['.'] else body

/-- Embedding of Go `filepath.Join(a, b)`: non-empty components joined
with the separator, then cleaned; empty when both components are empty. -/
def goJoin (a b : GoStr) : GoStr :=
  if a = [] ∧ b = [] then []
  else if a = [] then goClean b
  else if b = [] then goClean a
  else goClean (a ++ '/' :: b)

/-- Embedding of Go `filepath.Ext`, scanning the reversed path: the suffix
starting at the last dot of the final element, empty when that element has
no dot. -/
def goExtAux : List Char → List Char → GoStr
  | [], _ => []
  | '/' :: _, _ => []
  | '.' :: _, acc => '.' :: acc
  | c :: rest, acc => goExtAux rest (c :: acc)

/-- Go `filepath.Ext(path)`. -/
def goExt (p : GoStr) : GoStr := goExtAux p.reverse []

/-- ASCII lower-casing of one character, as applied by Go's `mime` package
to the extension before the table lookup. -/
def toLowerAscii (c : Char) : Char :=
  if 'A' ≤ c ∧ c ≤ 'Z' then Char.ofNat (c.toNat + 32) else c

/-- Modelled from the spec: the "static extension→MIME mapping" behind Go
`mime.TypeByExtension` — its builtin table (the Go runtime may merge
OS-provided entries; the static builtin table is the portable core the
spec describes). -/
def builtinTypes : List (GoStr × GoStr) :=
  [ (".avif".toList, "image/avif".toList),
    (".css".toList, "text/css; charset=utf-8".toList),
    (".gif".toList, "image/gif".toList),
    (".htm".toList, "text/html; charset=utf-8".toList),
    (".html".toList, "text/html; charset=utf-8".toList),
    (".jpeg".toList, "image/jpeg".toList),
    (".jpg".toList, "image/jpeg".toList),
    (".js".toList, "text/javascript; charset=utf-8".toList),
    (".json".toList, "application/json".toList),
    (".mjs".toList, "text/javascript; charset=utf-8".toList),
    (".pdf".toList, "application/pdf".toList),
    (".png".toList, "image/png".toList),
    (".svg".toList, "image/svg+xml".toList),
    (".wasm".toList, "application/wasm".toList),
    (".webp".toList, "image/webp".toList),
    (".xml".toList, "text/xml; charset=utf-8".toList) ]

/-- Go `mime.TypeByExtension` restricted to the builtin table: look the
lower-cased extension up, returning the empty string when unknown. -/
def typeByExtension (ext : GoStr) : GoStr :=
  match builtinTypes.lookup (ext.map toLowerAscii) with
  | some t => t
  | none => []

/-- A filesystem entry: a regular file with its content bytes, or a
directory with the names of its immediate children in enumeration
order. -/
inductive Entry where
  | file (content : GoStr)
  | dir (children : List GoStr)
deriving DecidableEq

/-- Outcome of `os.Stat` on a path: the entry, no entry
(`os.IsNotExist`), or a metadata error other than missing. -/
inductive StatOut where
  | missing
  | ioError
  | found (e : Entry)
deriving DecidableEq

/-- The filesystem as seen through `os.Stat`: a map from absolute path to
stat outcome.  A found file is readable with the recorded content (its
`Size()` is the content length); a found directory is listable with the
recorded children. -/
def FileSystem := GoStr → StatOut

/-- Decimal rendering of a number, as Go `fmt.Sprintf("%d", n)`. -/
def natToStr (n : Nat) : GoStr := (Nat.repr n).toList

/-- A response as the program writes it: status line fields, the header
fields in the order they appear in the format string, and the body.
`render` below turns it into the exact byte sequence of the Go
`fmt.Sprintf` calls. -/
structure Response where
  status : Nat
  reason : GoStr
  headers : List (GoStr × GoStr)
  body : GoStr
deriving DecidableEq

/-- CRLF line terminator. -/
def crlf : GoStr := ['\r', '\n']

/-- Render one header field as `Name: value` plus CRLF. -/
def renderHeader (h : GoStr × GoStr) : GoStr := h.1 ++ ": ".toList ++ h.2 ++ crlf

/-- The byte sequence written to the connection for a response: status
line, header block, blank line, body — exactly the shape of the three
`fmt.Sprintf` format strings in src/ghttpd.go lines 181-182, 205, 210. -/
def render (r : Response) : GoStr :=
  "HTTP/1.1 ".toList ++ natToStr r.status ++ ' ' :: r.reason ++ crlf
    ++ (r.headers.map renderHeader).flatten ++ crlf ++ r.body

/-- Embedding of `sendError` (src/ghttpd.go lines 209-212): the supplied
code, the message as status text, `text/plain`, the message length, and
the message as body. -/
def sendError (code : Nat) (message : GoStr) : Response :=
  { status := code, reason := message,
    headers := [("Content-Type".toList, "text/plain".toList),
                ("Content-Length".toList, natToStr message.length)],
    body := message }

/-- Embedding of `sendFile` (src/ghttpd.go lines 157-185) on a readable
file: content type from the path's extension with the
`application/octet-stream` default, `Content-Length` from the file size,
body streamed from the file. -/
def sendFile (path content : GoStr) : Response :=
  let ct0 := typeByExtension (goExt path)
  let ct := if ct0 = [] then "application/octet-stream".toList else ct0
  { status := 200, reason := "OK".toList,
    headers := [("Content-Type".toList, ct),
                ("Content-Length".toList, natToStr content.length)],
    body := content }

/-- The fixed opening of the listing document (src/ghttpd.go line 197). -/
def listingHeader : GoStr :=
  "<html><head><title>Directory Listing</title></head><body><h1>Directory Listing</h1><ul>".toList

/-- The fixed closing of the listing document (src/ghttpd.go line 203). -/
def listingFooter : GoStr := "</ul></body></html>".toList

/-- One iteration of the listing loop (src/ghttpd.go lines 199-202): the
list item for one child, whose link target joins the request path (with a
leading "." trimmed) with the child name. -/
def listItem (path name : GoStr) : GoStr :=
  let relativePath := goJoin (goTrim ['.'] path) name
  "<li><a href=\"".toList ++ relativePath ++ "\">".toList ++ name ++ "</a></li>".toList

/-- The listing document accumulated by the `strings.Builder` loop. -/
def listingBody (path : GoStr) (children : List GoStr) : GoStr :=
  (children.foldl (fun acc name => acc ++ listItem path name) listingHeader) ++ listingFooter

/-- Embedding of `generateDirectoryListing` (src/ghttpd.go lines 187-207)
on a listable directory: status 200, `text/html`, `Content-Length` equal
to the built document's byte length, the document as body. -/
def generateDirectoryListing (path : GoStr) (children : List GoStr) : Response :=
  { status := 200, reason := "OK".toList,
    headers := [("Content-Type".toList, "text/html".toList),
                ("Content-Length".toList, natToStr (listingBody path children).length)],
    body := listingBody path children }

/-- Embedding of `serveResource` (src/ghttpd.go lines 91-109): join the
served root with the request path, stat the result, and dispatch — 404
when missing, 500 on any other stat error, the directory listing for a
directory, the file response for a file. -/
def serveResource (fs : FileSystem) (dir path : GoStr) : Response :=
  match fs (goJoin dir path) with
  | .missing => sendError 404 "Not Found".toList
  | .ioError => sendError 500 "Internal Server Error".toList
  | .found (.dir children) => generateDirectoryListing path children
  | .found (.file content) => sendFile (goJoin dir path) content

/-- The post-parse half of `handleConnection` (src/ghttpd.go lines
83-88): validate, answer 400 with the validation error's message on
failure, otherwise serve the resource. -/
def handleParsed (fs : FileSystem) (dir : GoStr) (req : Request) : Response :=
  match validateRequest req.method req.version with
  | some e => sendError 400 (errMessage e)
  | none => serveResource fs dir req.path

/-- Embedding of `handleConnection` (src/ghttpd.go lines 69-89) as the
single response written for a connection's input bytes: parse errors
answer 400 "Bad Request", then validation and resource serving as in
`handleParsed`. -/
def handleConnection (fs : FileSystem) (dir : GoStr) (stream : GoStr) : Response :=
  match parseRequest stream with
  | .error _ => sendError 400 "Bad Request".toList
  | .ok req => handleParsed fs dir req

/-- State of the acceptor/worker-pool system of `main` (src/ghttpd.go
lines 46-66): one flag per worker task — `true` while its
`handleConnection` call is executing — and whether the acceptor holds an
accepted connection it has not yet handed off on the unbuffered channel
`connChan`. -/
structure PoolState where
  workers : List Bool
  pending : Bool
deriving DecidableEq

/-- The state right after startup: the `for i := range workers` loop has
spawned exactly `k` worker goroutines, all idle, and the acceptor has not
yet accepted anything. -/
def initState (k : Nat) : PoolState := ⟨List.replicate k false, false⟩

/-- Count of workers whose handler logic is currently executing. -/
def busyCount (s : PoolState) : Nat := (s.workers.filter id).length

/-- The send on the unbuffered channel `connChan` can complete: the
acceptor holds a connection and some worker is idle at the rendezvous. -/
def handOffEnabled (s : PoolState) : Prop :=
  s.pending = true ∧ ∃ i, s.workers.get? i = some false

/-- Interleaved steps of the acceptor and the `k` worker goroutines:
`accept` takes a new connection (only when the previous one was handed
off, since the acceptor is a single sequential loop); `handOff` is the
rendezvous on the unbuffered channel with an idle worker, which starts
that worker's handler; `finish` is a worker's `handleConnection`
returning, after which it loops back to receive. -/
inductive PoolStep : PoolState → PoolState → Prop where
  | accept (s : PoolState) : s.pending = false → PoolStep s ⟨s.workers, true⟩
  | handOff (s : PoolState) (i : Nat) : s.pending = true → s.workers.get? i = some false →
      PoolStep s ⟨s.workers.set i true, false⟩
  | finish (s : PoolState) (i : Nat) : s.workers.get? i = some true →
      PoolStep s ⟨s.workers.set i false, s.pending⟩

/-- States the pool system can reach from startup with `k` workers. -/
def Reachable (k : Nat) (s : PoolState) : Prop :=
  Relation.ReflTransGen PoolStep (initState k) s

/-- Splitting a separator-free string yields that single piece. -/
lemma goSplit_eq_single (sep : Char) (s : GoStr) (h : sep ∉ s) :
    goSplit sep s = [s] := by
  induction s with
  | nil => rfl
  | cons c rest ih =>
    have hc : c ≠ sep := fun hcs => h (hcs ▸ List.mem_cons_self c rest)
    have hr : sep ∉ rest := fun hm => h (List.mem_cons_of_mem c hm)
    simp [goSplit, hc, ih hr]

/-- Splitting at the first separator occurrence peels off the
separator-free part before it. -/
lemma goSplit_append (sep : Char) (a b : GoStr) (h : sep ∉ a) :
    goSplit sep (a ++ sep :: b) = a :: goSplit sep b := by
  induction a with
  | nil => simp [goSplit]
  | cons c rest ih =>
    have hc : c ≠ sep := fun hcs => h (hcs ▸ List.mem_cons_self c rest)
    have hr : sep ∉ rest := fun hm => h (List.mem_cons_of_mem c hm)
    simp [goSplit, hc, ih hr]

/-- Reading the first line of a stream that has a newline returns
everything up to and including that newline. -/
lemma readFirstLine_append (a rest : GoStr) (h : '\n' ∉ a) :
    readFirstLine (a ++ '\n' :: rest) = some (a ++ ['\n']) := by
  induction a with
  | nil => rfl
  | cons c t ih =>
    have hc : c ≠ '\n' := fun hcs => h (hcs ▸ List.mem_cons_self c t)
    have ht : '\n' ∉ t := fun hm => h (List.mem_cons_of_mem c hm)
    simp [readFirstLine, hc, ih ht]

/-- Folding list-append over a list is concatenation of the mapped
pieces. -/
lemma foldl_append_eq_flatten (f : GoStr → GoStr) (l : List GoStr) (acc : GoStr) :
    l.foldl (fun a x => a ++ f x) acc = acc ++ (l.map f).flatten := by
  induction l generalizing acc with
  | nil => simp
  | cons x t ih => simp [List.foldl_cons, ih, List.append_assoc]

/-- C1.  For every request line read from a connection, `parseRequest`
splits the line on the space separator and fails with the malformed
request-line error exactly when the resulting token count differs from
three; a three-token line never produces that error. -/
theorem parseRequest_malformed_iff_tokens (line : GoStr) :
    parseRequestLine line = .error .invalidRequestLine ↔ (goSplit ' ' line).length ≠ 3 := by
  unfold parseRequestLine
  rcases h : goSplit ' ' line with _ | ⟨a, _ | ⟨b, _ | ⟨c, _ | ⟨d, rest⟩⟩⟩⟩ <;>
    simp
  rcases hu : pathUnescape b with _ | p <;> simp

/-- C2.  Every valid single-line request `GET <path> HTTP/1.x` terminated
by a newline (possibly preceded by a carriage return inside `v`) parses
successfully into method "GET", the exactly percent-decoded path, and the
version token unchanged, with its trailing line terminator retained. -/
theorem parseRequest_valid_get (p q v rest : GoStr)
    (hps : ' ' ∉ p) (hpn : '\n' ∉ p) (hvs : ' ' ∉ v) (hvn : '\n' ∉ v)
    (_hver : "HTTP/1.".toList.isPrefixOf v = true)
    (hdec : pathUnescape p = some q) :
    parseRequest ('G' :: 'E' :: 'T' :: ' ' :: (p ++ ' ' :: (v ++ '\n' :: rest)))
      = .ok ⟨"GET".toList, q, v ++ ['\n']⟩ := by
  have hline : readFirstLine ('G' :: 'E' :: 'T' :: ' ' :: (p ++ ' ' :: (v ++ '\n' :: rest)))
      = some ('G' :: 'E' :: 'T' :: ' ' :: (p ++ ' ' :: (v ++ ['\n']))) := by
    have hnl : '\n' ∉ ('G' :: 'E' :: 'T' :: ' ' :: (p ++ ' ' :: v) : GoStr) := by
      intro hm
      rcases List.mem_cons.mp hm with h | hm
      · exact absurd h (by decide)
      rcases List.mem_cons.mp hm with h | hm
      · exact absurd h (by decide)
      rcases List.mem_cons.mp hm with h | hm
      · exact absurd h (by decide)
      rcases List.mem_cons.mp hm with h | hm
      · exact absurd h (by decide)
      rcases List.mem_append.mp hm with h | hm
      · exact hpn h
      rcases List.mem_cons.mp hm with h | hm
      · exact absurd h (by decide)
      · exact hvn hm
    have h := readFirstLine_append ('G' :: 'E' :: 'T' :: ' ' :: (p ++ ' ' :: v)) rest hnl
    simpa [List.append_assoc] using h
  have hsplit : goSplit ' ' ('G' :: 'E' :: 'T' :: ' ' :: (p ++ ' ' :: (v ++ ['\n'])))
      = [['G', 'E', 'T'], p, v ++ ['\n']] := by
    have hv' : ' ' ∉ v ++ ['\n'] := by
      intro hm
      rcases List.mem_append.mp hm with h | h
      · exact hvs h
      · exact absurd (List.mem_singleton.mp h) (by decide)
    have h0 : goSplit ' ' ((['G', 'E', 'T'] : GoStr) ++ ' ' :: (p ++ ' ' :: (v ++ ['\n'])))
        = ['G', 'E', 'T'] :: goSplit ' ' (p ++ ' ' :: (v ++ ['\n'])) :=
      goSplit_append ' ' ['G', 'E', 'T'] (p ++ ' ' :: (v ++ ['\n'])) (by decide)
    have h1 : goSplit ' ' (p ++ ' ' :: (v ++ ['\n'])) = p :: goSplit ' ' (v ++ ['\n']) :=
      goSplit_append ' ' p (v ++ ['\n']) hps
    have h2 : goSplit ' ' (v ++ ['\n']) = [v ++ ['\n']] :=
      goSplit_eq_single ' ' (v ++ ['\n']) hv'
    simpa using h0.trans (by rw [h1, h2])
  simp only [parseRequest, hline, parseRequestLine, hsplit, hdec]
  rfl

/-- C2 witness: the request `GET /a%20b HTTP/1.1\r\n` parses into method
"GET", the decoded path `/a b`, and the version token `HTTP/1.1\r\n` with
its line terminator retained. -/
theorem parseRequest_valid_get_witness :
    parseRequest ('G' :: 'E' :: 'T' :: ' ' ::
        ("/a%20b".toList ++ ' ' :: ("HTTP/1.1\r".toList ++ '\n' :: [])))
      = .ok ⟨"GET".toList, "/a b".toList, "HTTP/1.1\r".toList ++ ['\n']⟩ :=
  parseRequest_valid_get "/a%20b".toList "/a b".toList "HTTP/1.1\r".toList []
    (by decide) (by decide) (by decide) (by decide) (by decide) (by decide)

/-- C3.  Validation succeeds exactly when the method is "GET" and the
version starts with "HTTP"; on any validation failure the handler's
response is the 400 error response carrying the validation message, for
every filesystem — resource resolution is never consulted. -/
theorem validateRequest_iff_and_400 (m p v dirRoot : GoStr) :
    (validateRequest m v = none ↔ (m = "GET".toList ∧ "HTTP".toList.isPrefixOf v = true))
    ∧ (∀ e, validateRequest m v = some e →
        ∀ fs : FileSystem, handleParsed fs dirRoot ⟨m, p, v⟩ = sendError 400 (errMessage e)
          ∧ (handleParsed fs dirRoot ⟨m, p, v⟩).status = 400) := by
  cases hpre : ("HTTP".toList.isPrefixOf v) with
  | false =>
    have hv : validateRequest m v = some .invalidHTTPVersion := by
      unfold validateRequest; rw [hpre]; rfl
    refine ⟨?_, ?_⟩
    · rw [hv]; simp [hpre]
    · intro e he fs
      rw [hv] at he
      obtain rfl : ValErr.invalidHTTPVersion = e := Option.some.inj he
      have hp : handleParsed fs dirRoot ⟨m, p, v⟩
          = sendError 400 (errMessage .invalidHTTPVersion) := by
        unfold handleParsed; rw [hv]
      exact ⟨hp, by rw [hp]; rfl⟩
  | true =>
    by_cases hm : m = "GET".toList
    · have hv : validateRequest m v = none := by
        unfold validateRequest; rw [hpre, hm]; rfl
      refine ⟨?_, ?_⟩
      · rw [hv]; simp [hm, hpre]
      · intro e he
        rw [hv] at he
        exact absurd he (by simp)
    · have hm' : ¬m = ['G', 'E', 'T'] := hm
      have hv : validateRequest m v = some .methodNotAllowed := by
        unfold validateRequest; rw [hpre]; simp [hm']
      refine ⟨?_, ?_⟩
      · rw [hv]; simp [hm']
      · intro e he fs
        rw [hv] at he
        obtain rfl : ValErr.methodNotAllowed = e := Option.some.inj he
        have hp : handleParsed fs dirRoot ⟨m, p, v⟩
            = sendError 400 (errMessage .methodNotAllowed) := by
          unfold handleParsed; rw [hv]
        exact ⟨hp, by rw [hp]; rfl⟩

/-- C3 witness: a POST request with a valid HTTP version fails validation
with the method error and the handler answers 400 with that message. -/
theorem validateRequest_iff_and_400_witness :
    handleParsed (fun _ => StatOut.missing) "/srv".toList
        ⟨"POST".toList, "/x".toList, "HTTP/1.1\r\n".toList⟩
      = sendError 400 (errMessage .methodNotAllowed) :=
  ((validateRequest_iff_and_400 "POST".toList "/x".toList "HTTP/1.1\r\n".toList
      "/srv".toList).2 ValErr.methodNotAllowed (by decide)
    (fun _ => StatOut.missing)).1

/-- C4.  Resource resolution maps each stat outcome at the joined path to
its response: missing to the plain-text 404, any other stat error to the
500, a directory to the listing response, a regular file to the file
response. -/
theorem serveResource_taxonomy (fs : FileSystem) (dirRoot path : GoStr) :
    (fs (goJoin dirRoot path) = .missing →
      serveResource fs dirRoot path = sendError 404 "Not Found".toList
        ∧ (serveResource fs dirRoot path).status = 404
        ∧ (serveResource fs dirRoot path).headers.lookup "Content-Type".toList
            = some "text/plain".toList)
    ∧ (fs (goJoin dirRoot path) = .ioError →
      serveResource fs dirRoot path = sendError 500 "Internal Server Error".toList
        ∧ (serveResource fs dirRoot path).status = 500)
    ∧ (∀ children, fs (goJoin dirRoot path) = .found (.dir children) →
      serveResource fs dirRoot path = generateDirectoryListing path children)
    ∧ (∀ content, fs (goJoin dirRoot path) = .found (.file content) →
      serveResource fs dirRoot path = sendFile (goJoin dirRoot path) content) := by
  refine ⟨fun h => ?_, fun h => ?_, fun children h => ?_, fun content h => ?_⟩ <;>
    unfold serveResource <;> rw [h]
  · exact ⟨rfl, rfl, rfl⟩
  · exact ⟨rfl, rfl⟩

/-- C4 witness: the four stat outcomes at root `/srv` and request path
`/x`, each realised by a concrete filesystem, produce the 404, the 500,
the listing, and the file response respectively. -/
theorem serveResource_taxonomy_witness :
    serveResource (fun _ => .missing) "/srv".toList "/x".toList
        = sendError 404 "Not Found".toList
    ∧ serveResource (fun _ => .ioError) "/srv".toList "/x".toList
        = sendError 500 "Internal Server Error".toList
    ∧ serveResource (fun _ => .found (.dir ["a".toList])) "/srv".toList "/x".toList
        = generateDirectoryListing "/x".toList ["a".toList]
    ∧ serveResource (fun _ => .found (.file "hi".toList)) "/srv".toList "/x".toList
        = sendFile (goJoin "/srv".toList "/x".toList) "hi".toList :=
  ⟨((serveResource_taxonomy (fun _ => .missing) "/srv".toList "/x".toList).1 rfl).1,
   ((serveResource_taxonomy (fun _ => .ioError) "/srv".toList "/x".toList).2.1 rfl).1,
   (serveResource_taxonomy (fun _ => .found (.dir ["a".toList])) "/srv".toList
      "/x".toList).2.2.1 ["a".toList] rfl,
   (serveResource_taxonomy (fun _ => .found (.file "hi".toList)) "/srv".toList
      "/x".toList).2.2.2 "hi".toList rfl⟩

/-- C5.  An existing regular file is served with status 200, a
`Content-Type` derived from the joined path's extension through the static
extension→MIME table with the `application/octet-stream` default, a
`Content-Length` equal to the file's size, and the file's exact bytes as
body — and those are the only two headers. -/
theorem serveResource_file_response (fs : FileSystem) (dirRoot path content : GoStr)
    (h : fs (goJoin dirRoot path) = .found (.file content)) :
    serveResource fs dirRoot path =
      { status := 200, reason := "OK".toList,
        headers := [("Content-Type".toList,
            if typeByExtension (goExt (goJoin dirRoot path)) = []
            then "application/octet-stream".toList
            else typeByExtension (goExt (goJoin dirRoot path))),
          ("Content-Length".toList, natToStr content.length)],
        body := content } := by
  unfold serveResource
  rw [h]
  rfl

/-- C5 witness: serving `/a.html` (content "hi", 2 bytes) from root `/srv`
yields 200 with `text/html; charset=utf-8`, `Content-Length` 2, and body
"hi". -/
theorem serveResource_file_response_witness :
    serveResource
        (fun q => if q = "/srv/a.html".toList then .found (.file "hi".toList) else .missing)
        "/srv".toList "/a.html".toList =
      { status := 200, reason := "OK".toList,
        headers := [("Content-Type".toList, "text/html; charset=utf-8".toList),
          ("Content-Length".toList, "2".toList)],
        body := "hi".toList } := by
  have h := serveResource_file_response
    (fun q => if q = "/srv/a.html".toList then .found (.file "hi".toList) else .missing)
    "/srv".toList "/a.html".toList "hi".toList (by decide)
  rw [h]
  decide

/-- C6.  The directory-listing response has status 200, exactly the
`text/html` content type and a `Content-Length` equal to the byte length
of the rendered document, and its body is the fixed frame around one list
item per immediate child, in order, whose link target joins the request
path with the child name and whose visible text is the child name. -/
theorem generateDirectoryListing_spec (path : GoStr) (children : List GoStr) :
    (generateDirectoryListing path children).status = 200
    ∧ (generateDirectoryListing path children).headers
        = [("Content-Type".toList, "text/html".toList),
           ("Content-Length".toList,
             natToStr (generateDirectoryListing path children).body.length)]
    ∧ (generateDirectoryListing path children).body
        = listingHeader ++ (children.map (listItem path)).flatten ++ listingFooter := by
  refine ⟨rfl, rfl, ?_⟩
  show listingBody path children = _
  unfold listingBody
  rw [foldl_append_eq_flatten]

/-- C7.  Every response the handler writes — parse-error, validation-error,
404, 500, file, and listing responses alike — carries exactly the two
headers `Content-Type` and `Content-Length`, in that order and with no
others. -/
theorem response_headers_exactly_two (fs : FileSystem) (dirRoot stream : GoStr) :
    (handleConnection fs dirRoot stream).headers.map Prod.fst
      = ["Content-Type".toList, "Content-Length".toList] := by
  have hserve : ∀ pth, (serveResource fs dirRoot pth).headers.map Prod.fst
      = ["Content-Type".toList, "Content-Length".toList] := by
    intro pth
    unfold serveResource
    cases fs (goJoin dirRoot pth) with
    | missing => rfl
    | ioError => rfl
    | found entry => cases entry <;> rfl
  have hparsed : ∀ req, (handleParsed fs dirRoot req).headers.map Prod.fst
      = ["Content-Type".toList, "Content-Length".toList] := by
    intro req
    unfold handleParsed
    cases validateRequest req.method req.version with
    | some e => rfl
    | none => exact hserve req.path
  unfold handleConnection
  cases parseRequest stream with
  | error e => rfl
  | ok req => exact hparsed req

/-- C8.  The resolver's join applies no containment check: the decoded
request path `/../secret`, which contains a `..` segment, joined onto the
served root `/srv/www` yields `/srv/secret`, a path outside the served
root (the root is not a prefix of it). -/
theorem join_escapes_served_root :
    ∃ root reqPath : GoStr,
      ['.', '.'] ∈ goSplit '/' reqPath
      ∧ goJoin root reqPath = "/srv/secret".toList
      ∧ root.isPrefixOf (goJoin root reqPath) = false :=
  ⟨"/srv/www".toList, "/../secret".toList, by decide, by decide, by decide⟩

/-- C9.  In every state the pool system can reach, there are exactly `k`
worker tasks, at most `k` of them have handler logic executing, and when
all of them are busy the rendezvous hand-off on the unbuffered channel is
not enabled, so the acceptor blocks. -/
theorem pool_concurrency_bound (k : Nat) (s : PoolState) (h : Reachable k s) :
    s.workers.length = k
    ∧ busyCount s ≤ k
    ∧ ((∀ b ∈ s.workers, b = true) → ¬ handOffEnabled s) := by
  have hlen : s.workers.length = k := by
    induction h with
    | refl => simp [initState]
    | tail hab hbc ih =>
      cases hbc with
      | accept hp => simpa using ih
      | handOff i hp hw => simpa [List.length_set] using ih
      | finish i hw => simpa [List.length_set] using ih
  refine ⟨hlen, ?_, ?_⟩
  · calc busyCount s = (s.workers.filter id).length := rfl
      _ ≤ s.workers.length := List.length_filter_le id s.workers
      _ = k := hlen
  · rintro hall ⟨hp, i, hw⟩
    have hmem : false ∈ s.workers := List.get?_mem hw
    exact absurd (hall false hmem) (by decide)

/-- C9 witness: the startup state with two workers has exactly two worker
tasks, at most two busy handlers, and a blocked hand-off when all are
busy. -/
theorem pool_concurrency_bound_witness :
    (initState 2).workers.length = 2
    ∧ busyCount (initState 2) ≤ 2
    ∧ ((∀ b ∈ (initState 2).workers, b = true) → ¬ handOffEnabled (initState 2)) :=
  pool_concurrency_bound 2 (initState 2) Relation.ReflTransGen.refl

/-- C10.  When a request fails both validation conditions, the version
check comes first: `validateRequest` reports the version error, and the
handler's 400 response body is the version-error message, not the
method-error message. -/
theorem validateRequest_version_checked_first (m v : GoStr)
    (_hm : m ≠ "GET".toList) (hv : "HTTP".toList.isPrefixOf v = false) :
    validateRequest m v = some .invalidHTTPVersion
    ∧ ∀ (fs : FileSystem) (dirRoot p : GoStr),
        (handleParsed fs dirRoot ⟨m, p, v⟩).body = "invalid HTTP version".toList
        ∧ (handleParsed fs dirRoot ⟨m, p, v⟩).body ≠ "method not allowed".toList := by
  have hval : validateRequest m v = some .invalidHTTPVersion := by
    unfold validateRequest; rw [hv]; rfl
  refine ⟨hval, fun fs dirRoot p => ?_⟩
  have hp : handleParsed fs dirRoot ⟨m, p, v⟩
      = sendError 400 (errMessage .invalidHTTPVersion) := by
    unfold handleParsed; rw [hval]
  rw [hp]
  exact ⟨rfl, by decide⟩

/-- C10 witness: a POST request with version `FTP/1.0\r\n` fails with the
version error and the response body is "invalid HTTP version". -/
theorem validateRequest_version_checked_first_witness :
    validateRequest "POST".toList "FTP/1.0\r\n".toList = some .invalidHTTPVersion
    ∧ (handleParsed (fun _ => .missing) "/srv".toList
        ⟨"POST".toList, "/x".toList, "FTP/1.0\r\n".toList⟩).body
      = "invalid HTTP version".toList :=
  ⟨(validateRequest_version_checked_first "POST".toList "FTP/1.0\r\n".toList
      (by decide) (by decide)).1,
   ((validateRequest_version_checked_first "POST".toList "FTP/1.0\r\n".toList
      (by decide) (by decide)).2 (fun _ => .missing) "/srv".toList "/x".toList).1⟩

end Ghttpd
